import Mathlib

/-!
Verification of the 3D-acquisition core (`functions.py`): constrained
back-projection, robust plane/line fitting, and mask splitting.

Pure numeric code is embedded over an arbitrary field (instantiated at `ℚ`
for executable checks and at `ℝ` where trigonometry is involved).  The
randomness of the consensus fitters is made explicit: each fitter receives
the sequence of minimal sample subsets it draws, and a seeded wrapper
derives that sequence deterministically from an integer seed.
-/

namespace Spec2Proof

/-- Errors surfaced by the Python runtime / numpy in `get_xyz_coords`:
`linAlgError` models `numpy.linalg.LinAlgError` (singular or non-square
system, the spec's SingularSystemError), `typeError` models the `TypeError`
raised when iterating over `None`. -/
inductive PyErr where
  | typeError
  | linAlgError
deriving DecidableEq

/-- A 3-vector with named components. -/
structure V3 (α : Type) where
  x : α
  y : α
  z : α
deriving DecidableEq

/-- A 4-vector (a row of a 3×4 projection matrix, or a linear constraint
`[a, b, c, d]` meaning `a·x + b·y + c·z = d`). -/
structure V4 (α : Type) where
  a : α
  b : α
  c : α
  d : α
deriving DecidableEq

/-- A 3×3 matrix, stored by rows. -/
structure M3 (α : Type) where
  r0 : V3 α
  r1 : V3 α
  r2 : V3 α
deriving DecidableEq

/-- A 3×4 matrix, stored by rows. -/
structure M34 (α : Type) where
  r0 : V4 α
  r1 : V4 α
  r2 : V4 α
deriving DecidableEq

variable {α : Type} [Field α] [DecidableEq α]

/-- Dot product of two 3-vectors. -/
def dot3 (u v : V3 α) : α := u.x * v.x + u.y * v.y + u.z * v.z

/-- Row of a 3×4 matrix applied to the homogeneous extension `(x, y, z, 1)`
of a 3D point. -/
def dot4h (r : V4 α) (v : V3 α) : α := r.a * v.x + r.b * v.y + r.c * v.z + r.d

/-- Elementwise scalar multiple of a 4-vector (`ppm[2] * i` in the code). -/
def v4smul (s : α) (v : V4 α) : V4 α := ⟨s * v.a, s * v.b, s * v.c, s * v.d⟩

/-- Elementwise difference of 4-vectors (`k1 - ppm[0]` in the code). -/
def v4sub (u v : V4 α) : V4 α := ⟨u.a - v.a, u.b - v.b, u.c - v.c, u.d - v.d⟩

/-- Determinant of a 3×3 matrix (cofactor expansion along the first row). -/
def det3 (M : M3 α) : α :=
  M.r0.x * (M.r1.y * M.r2.z - M.r1.z * M.r2.y)
    - M.r0.y * (M.r1.x * M.r2.z - M.r1.z * M.r2.x)
    + M.r0.z * (M.r1.x * M.r2.y - M.r1.y * M.r2.x)

/-- Matrix–vector product for a 3×3 matrix. -/
def mulM3V (M : M3 α) (v : V3 α) : V3 α := ⟨dot3 M.r0 v, dot3 M.r1 v, dot3 M.r2 v⟩

/-- Exact solution of the square system `M · v = b` by Cramer's rule; this is
the value `numpy.linalg.solve` returns when `det M ≠ 0`. -/
def solve3 (M : M3 α) (b : V3 α) : V3 α :=
  ⟨det3 ⟨⟨b.x, M.r0.y, M.r0.z⟩, ⟨b.y, M.r1.y, M.r1.z⟩, ⟨b.z, M.r2.y, M.r2.z⟩⟩ / det3 M,
   det3 ⟨⟨M.r0.x, b.x, M.r0.z⟩, ⟨M.r1.x, b.y, M.r1.z⟩, ⟨M.r2.x, b.z, M.r2.z⟩⟩ / det3 M,
   det3 ⟨⟨M.r0.x, M.r0.y, b.x⟩, ⟨M.r1.x, M.r1.y, b.y⟩, ⟨M.r2.x, M.r2.y, b.z⟩⟩ / det3 M⟩

/-- The 3×3 coefficient matrix stacked by `get_xyz_coords` for a pixel
`(i, j)`, projection matrix `ppm` and a single constraint `c`: the two ray
rows `(ppm[2]·i - ppm[0])[0:3]`, `(ppm[2]·j - ppm[1])[0:3]` and the
constraint row `c[0:3]`. -/
def sysMatrix (i j : α) (ppm : M34 α) (c : V4 α) : M3 α :=
  let k3 := v4sub (v4smul i ppm.r2) ppm.r0
  let k4 := v4sub (v4smul j ppm.r2) ppm.r1
  ⟨⟨k3.a, k3.b, k3.c⟩, ⟨k4.a, k4.b, k4.c⟩, ⟨c.a, c.b, c.c⟩⟩

/-- The right-hand side stacked by `get_xyz_coords`:
`[-k3[-1], -k4[-1], c[-1]]`. -/
def sysRhs (i j : α) (ppm : M34 α) (c : V4 α) : V3 α :=
  let k3 := v4sub (v4smul i ppm.r2) ppm.r0
  let k4 := v4sub (v4smul j ppm.r2) ppm.r1
  ⟨-k3.d, -k4.d, c.d⟩

/-- Embedding of `get_xyz_coords(i, j, ppm, constraints=None)`.  The optional
`constraints` argument keeps its Python default `None`, in which case the
`for constraint in constraints` loop raises a `TypeError` before any linear
algebra runs.  With a constraint list, the code stacks `2 + n` equations in 3
unknowns and calls `numpy.linalg.solve`, which raises `LinAlgError` unless
the system is square (exactly one constraint) and non-singular. -/
def get_xyz_coords (i j : α) (ppm : M34 α) (constraints : Option (List (V4 α))) :
    Except PyErr (V3 α) :=
  match constraints with
  | none => .error .typeError
  | some [c] =>
      if det3 (sysMatrix i j ppm c) = 0 then .error .linAlgError
      else .ok (solve3 (sysMatrix i j ppm c) (sysRhs i j ppm c))
  | some _ => .error .linAlgError

/-- The 3×3 identity matrix. -/
def idM3 : M3 α := ⟨⟨1, 0, 0⟩, ⟨0, 1, 0⟩, ⟨0, 0, 1⟩⟩

/-- Product of a 3×3 matrix with a 3×4 matrix (the
`intrinsic_matrix @ extrinsic_matrix` step of `calculatePpmMatrix`). -/
def m3mul34 (A : M3 α) (E : M34 α) : M34 α :=
  ⟨⟨A.r0.x * E.r0.a + A.r0.y * E.r1.a + A.r0.z * E.r2.a,
    A.r0.x * E.r0.b + A.r0.y * E.r1.b + A.r0.z * E.r2.b,
    A.r0.x * E.r0.c + A.r0.y * E.r1.c + A.r0.z * E.r2.c,
    A.r0.x * E.r0.d + A.r0.y * E.r1.d + A.r0.z * E.r2.d⟩,
   ⟨A.r1.x * E.r0.a + A.r1.y * E.r1.a + A.r1.z * E.r2.a,
    A.r1.x * E.r0.b + A.r1.y * E.r1.b + A.r1.z * E.r2.b,
    A.r1.x * E.r0.c + A.r1.y * E.r1.c + A.r1.z * E.r2.c,
    A.r1.x * E.r0.d + A.r1.y * E.r1.d + A.r1.z * E.r2.d⟩,
   ⟨A.r2.x * E.r0.a + A.r2.y * E.r1.a + A.r2.z * E.r2.a,
    A.r2.x * E.r0.b + A.r2.y * E.r1.b + A.r2.z * E.r2.b,
    A.r2.x * E.r0.c + A.r2.y * E.r1.c + A.r2.z * E.r2.c,
    A.r2.x * E.r0.d + A.r2.y * E.r1.d + A.r2.z * E.r2.d⟩⟩

/-- Rodrigues formula (`cv2.Rodrigues`): rotation matrix of the axis-angle
vector `r`, with angle `θ = ‖r‖` and unit axis `r / θ`
(`R = cos θ · I + (1 - cos θ) · u uᵀ + sin θ · [u]×`). -/
noncomputable def rodrigues (r : V3 ℝ) : M3 ℝ :=
  let t := Real.sqrt (r.x ^ 2 + r.y ^ 2 + r.z ^ 2)
  let ux := r.x / t
  let uy := r.y / t
  let uz := r.z / t
  ⟨⟨Real.cos t + ux * ux * (1 - Real.cos t),
    ux * uy * (1 - Real.cos t) - uz * Real.sin t,
    ux * uz * (1 - Real.cos t) + uy * Real.sin t⟩,
   ⟨uy * ux * (1 - Real.cos t) + uz * Real.sin t,
    Real.cos t + uy * uy * (1 - Real.cos t),
    uy * uz * (1 - Real.cos t) - ux * Real.sin t⟩,
   ⟨uz * ux * (1 - Real.cos t) - uy * Real.sin t,
    uz * uy * (1 - Real.cos t) + ux * Real.sin t,
    Real.cos t + uz * uz * (1 - Real.cos t)⟩⟩

/-- Embedding of `calculatePpmMatrix`: rotation matrix from the axis-angle
vector, concatenated with the translation into a 3×4 extrinsic matrix, then
left-multiplied by the intrinsic matrix. -/
noncomputable def calculatePpmMatrix (imatrix : M3 ℝ) (rvec tvec : V3 ℝ) : M34 ℝ :=
  let R := rodrigues rvec
  let E : M34 ℝ :=
    ⟨⟨R.r0.x, R.r0.y, R.r0.z, tvec.x⟩,
     ⟨R.r1.x, R.r1.y, R.r1.z, tvec.y⟩,
     ⟨R.r2.x, R.r2.y, R.r2.z, tvec.z⟩⟩
  m3mul34 imatrix E

/-- Forward pinhole projection of a 3D point by a 3×4 projection matrix:
the pixel `(P0·X̃ / P2·X̃, P1·X̃ / P2·X̃)` with `X̃` the homogeneous
extension of `X`.  This is the projective relation of spec §4.2 that
`get_xyz_coords` inverts. -/
noncomputable def projPixel (P : M34 ℝ) (X : V3 ℝ) : ℝ × ℝ :=
  (dot4h P.r0 X / dot4h P.r2 X, dot4h P.r1 X / dot4h P.r2 X)

/-- A 2D point `(x, y)` handled by the line fitter. -/
abbrev Pt := ℚ × ℚ

/-- A 3D point `(x, y, z)` handled by the plane fitter. -/
abbrev Pt3 := ℚ × ℚ × ℚ

/-- A fitted line `y = slope · x + intercept`. -/
structure LineModel where
  slope : ℚ
  intercept : ℚ
deriving DecidableEq

/-- A fitted plane `z = A · x + B · y + D` (`coef_ = [A, B]`,
`intercept_ = D` of the final estimator). -/
structure PlaneModel where
  A : ℚ
  B : ℚ
  D : ℚ
deriving DecidableEq

/-- Embedding of `validateData(a, b)` (the `is_data_valid` predicate of
`calculatePlaneCoefs`): `b` is the triple of z-values of the 3 sampled
points and the sample is rejected exactly when
`b[0] == b[1] and b[1] == b[2]`. -/
def validateData (_a : List (ℚ × ℚ)) (b : ℚ × ℚ × ℚ) : Bool :=
  !(decide (b.1 = b.2.1) && decide (b.2.1 = b.2.2))

/-- Embedding of `validateDataLine(intercept)`: the returned `is_model_valid`
predicate accepts a fitted line iff `abs(intercept - model.intercept_) > 25`.
(The data arguments are ignored, as in the source closure.) -/
def validateDataLine (intercept : ℚ) : LineModel → List Pt → Bool :=
  fun model _pts => decide (25 < |intercept - model.intercept|)

/-- Ordinary least-squares line fit `y = slope · x + intercept` (the
`LinearRegression` base estimator); `none` when the design matrix is
degenerate (all x equal or fewer than 2 points). -/
def olsLine (pts : List Pt) : Option LineModel :=
  let n : ℚ := pts.length
  let sx := (pts.map Prod.fst).sum
  let sy := (pts.map Prod.snd).sum
  let sxx := (pts.map fun p => p.1 * p.1).sum
  let sxy := (pts.map fun p => p.1 * p.2).sum
  let den := n * sxx - sx * sx
  if den = 0 then none
  else
    let slope := (n * sxy - sx * sy) / den
    some ⟨slope, (sy - slope * sx) / n⟩

/-- Whether a point is an inlier of a line model: absolute residual within
the tolerance. -/
def lineResidualOk (m : LineModel) (tol : ℚ) (p : Pt) : Bool :=
  decide (|p.2 - (m.slope * p.1 + m.intercept)| ≤ tol)

/-- The inlier boolean mask of a line model over a point sequence,
index-aligned with the input. -/
def inlierMaskLine (m : LineModel) (tol : ℚ) (pts : List Pt) : List Bool :=
  pts.map (lineResidualOk m tol)

/-- Number of `true` entries of a boolean mask (the inlier count). -/
def countTrue (l : List Bool) : ℕ := (l.filter id).length

/-- A candidate retained during the consensus search: the subset-fitted
model, its inlier mask over the full point set, and its inlier count. -/
structure LineCandidate where
  model : LineModel
  mask : List Bool
  score : ℕ
deriving DecidableEq

/-- Modelled from the spec (§4.3–4.4): one trial of the consensus line
fitter (`RANSACRegressor` is external library code).  The drawn minimal
subset is fitted by least squares; a model failing the caller's
model-validity predicate is discarded; otherwise the candidate is scored by
its inlier count over the full point set. -/
def lineTrial (pts : List Pt) (tol : ℚ) (valid : LineModel → List Pt → Bool)
    (sample : List Pt) : Option LineCandidate :=
  match olsLine sample with
  | none => none
  | some m =>
      if valid m pts then
        let mask := inlierMaskLine m tol pts
        some ⟨m, mask, countTrue mask⟩
      else none

/-- Keep the candidate with the strictly larger inlier count (first winner
retained on ties). -/
def betterCand (best c : Option LineCandidate) : Option LineCandidate :=
  match best, c with
  | none, c => c
  | some b, none => some b
  | some b, some c => if b.score < c.score then some c else some b

/-- Modelled from the spec (§4.3–4.4): the consensus search over the trial
budget.  `stream` is the sequence of minimal sample subsets drawn by the
(externally seeded) random source, one per trial. -/
def bestLineCandidate (stream : List (List Pt)) (pts : List Pt) (tol : ℚ)
    (valid : LineModel → List Pt → Bool) : Option LineCandidate :=
  stream.foldl (fun best s => betterCand best (lineTrial pts tol valid s)) none

/-- Selection of a point sequence by an index-aligned boolean mask
(`points[inliers]` in the code). -/
def selectByMask : List Pt → List Bool → List Pt
  | [], _ => []
  | _ :: _, [] => []
  | x :: xs, b :: bs => if b then x :: selectByMask xs bs else selectByMask xs bs

/-- Embedding of `calculateLineCoefs(points, is_model_valid)`: run the
consensus search (spec §4.3–4.4, the `RANSACRegressor` call), then refit the
winning candidate's inliers by ordinary least squares; the returned
coefficients are those of the refit estimator and the returned mask is the
winning candidate's inlier mask.  `none` models the fitter's
FitFailureError. -/
def calculateLineCoefs (stream : List (List Pt)) (points : List Pt) (tol : ℚ)
    (is_model_valid : LineModel → List Pt → Bool) : Option (LineModel × List Bool) :=
  match bestLineCandidate stream points tol is_model_valid with
  | none => none
  | some c =>
      match olsLine (selectByMask points c.mask) with
      | none => none
      | some m => some (m, c.mask)

/-- The always-true model-validity predicate (the `is_model_valid=None`
default of the first `calculateLineCoefs` call). -/
def noModelCheck : LineModel → List Pt → Bool := fun _ _ => true

/-- Intermediate state of `splitTopBottomPoints` just before the final
intercept comparison: the two rasterized inlier sets and the two refit
intercepts. -/
structure SplitInfo where
  set1 : List Pt
  set2 : List Pt
  i1 : ℚ
  i2 : ℚ
deriving DecidableEq

/-- The two fits of `splitTopBottomPoints` (lines 158–174): fit a first line
over all points, rasterize its inliers (`first_set`), restrict to the
complement (`points_top = points[logical_not(inliers)]`), and fit a second
line there under the distinct-intercept predicate seeded with the first
fit's intercept.  Masks are represented by the list of their non-zero pixel
coordinates. -/
def splitResult (s1 s2 : List (List Pt)) (tol : ℚ) (src : List Pt) :
    Option SplitInfo :=
  match calculateLineCoefs s1 src tol noModelCheck with
  | none => none
  | some (m1, mask1) =>
      let first_set := selectByMask src mask1
      let points_top := selectByMask src (mask1.map (!·))
      match calculateLineCoefs s2 points_top tol (validateDataLine m1.intercept) with
      | none => none
      | some (m2, mask2) =>
          some ⟨first_set, selectByMask points_top mask2, m1.intercept, m2.intercept⟩

/-- Embedding of `splitTopBottomPoints` (`splitMask`): after the two fits,
`if intercept_first < intercept_second` the first set is returned as `top`
and the second as `bottom`, else the other way round; the result pair is
`(bottom, top)`. -/
def splitTopBottomPoints (s1 s2 : List (List Pt)) (tol : ℚ) (src : List Pt) :
    Option (List Pt × List Pt) :=
  (splitResult s1 s2 tol src).map fun r =>
    if r.i1 < r.i2 then (r.set2, r.set1) else (r.set1, r.set2)

/-- Ordinary least-squares plane fit `z = A · x + B · y + D` via the normal
equations (the `LinearRegression` base estimator of `calculatePlaneCoefs`);
`none` when the normal equations are singular. -/
def olsPlane (pts : List Pt3) : Option PlaneModel :=
  let n : ℚ := pts.length
  let sx := (pts.map fun p => p.1).sum
  let sy := (pts.map fun p => p.2.1).sum
  let sz := (pts.map fun p => p.2.2).sum
  let sxx := (pts.map fun p => p.1 * p.1).sum
  let sxy := (pts.map fun p => p.1 * p.2.1).sum
  let syy := (pts.map fun p => p.2.1 * p.2.1).sum
  let sxz := (pts.map fun p => p.1 * p.2.2).sum
  let syz := (pts.map fun p => p.2.1 * p.2.2).sum
  let M : M3 ℚ := ⟨⟨sxx, sxy, sx⟩, ⟨sxy, syy, sy⟩, ⟨sx, sy, n⟩⟩
  if det3 M = 0 then none
  else
    let v := solve3 M ⟨sxz, syz, sz⟩
    some ⟨v.x, v.y, v.z⟩

/-- Whether a 3D point is an inlier of a plane model: absolute z-residual
within the tolerance (`residual_threshold=0.01` in `calculatePlaneCoefs`). -/
def planeResidualOk (m : PlaneModel) (tol : ℚ) (p : Pt3) : Bool :=
  decide (|p.2.2 - (m.A * p.1 + m.B * p.2.1 + m.D)| ≤ tol)

/-- The inlier boolean mask of a plane model over a 3D point sequence. -/
def inlierMaskPlane (m : PlaneModel) (tol : ℚ) (pts : List Pt3) : List Bool :=
  pts.map (planeResidualOk m tol)

/-- A candidate retained during the consensus plane search. -/
structure PlaneCandidate where
  model : PlaneModel
  mask : List Bool
  score : ℕ
deriving DecidableEq

/-- Modelled from the spec (§4.3): one trial of the consensus plane fitter
(`RANSACRegressor` is external library code).  The 3-point minimal sample is
first screened by `validateData` on its z-values, then fitted by least
squares and scored by its inlier count over the full point set. -/
def planeTrial (pts : List Pt3) (tol : ℚ) (sample : Pt3 × Pt3 × Pt3) :
    Option PlaneCandidate :=
  let s := [sample.1, sample.2.1, sample.2.2]
  if validateData (s.map fun p => (p.1, p.2.1)) (sample.1.2.2, sample.2.1.2.2, sample.2.2.2.2) then
    match olsPlane s with
    | none => none
    | some m =>
        let mask := inlierMaskPlane m tol pts
        some ⟨m, mask, countTrue mask⟩
  else none

/-- Keep the plane candidate with the strictly larger inlier count. -/
def betterPlaneCand (best c : Option PlaneCandidate) : Option PlaneCandidate :=
  match best, c with
  | none, c => c
  | some b, none => some b
  | some b, some c => if b.score < c.score then some c else some b

/-- Modelled from the spec (§4.3): the consensus plane search over the trial
budget; `stream` is the drawn sequence of 3-point minimal samples. -/
def bestPlaneCandidate (stream : List (Pt3 × Pt3 × Pt3)) (pts : List Pt3) (tol : ℚ) :
    Option PlaneCandidate :=
  stream.foldl (fun best s => betterPlaneCand best (planeTrial pts tol s)) none

/-- Selection of a 3D point sequence by an index-aligned boolean mask. -/
def selectByMask3 : List Pt3 → List Bool → List Pt3
  | [], _ => []
  | _ :: _, [] => []
  | x :: xs, b :: bs => if b then x :: selectByMask3 xs bs else selectByMask3 xs bs

/-- The fitted plane model of `calculatePlaneCoefs` (the `RANSACRegressor`
fit of lines 105–108): consensus search, then ordinary least-squares refit
over the winning candidate's inliers (`reg.estimator_`). -/
def fitPlaneModel (stream : List (Pt3 × Pt3 × Pt3)) (points : List Pt3) (tol : ℚ) :
    Option PlaneModel :=
  match bestPlaneCandidate stream points tol with
  | none => none
  | some c => olsPlane (selectByMask3 points c.mask)

/-- Embedding of `calculatePlaneCoefs`: fit the plane, then return
`list(np.append(reg.estimator_.coef_, [-1, -reg.estimator_.intercept_]))`,
i.e. the 4-list `[A, B, -1, -D]`, here a `V4` linear constraint. -/
def calculatePlaneCoefs (stream : List (Pt3 × Pt3 × Pt3)) (points : List Pt3) (tol : ℚ) :
    Option (V4 ℚ) :=
  (fitPlaneModel stream points tol).map fun m => ⟨m.A, m.B, -1, -m.D⟩

/-- One step of a linear congruential generator, standing in for the fixed
random seed of the idempotence property (spec §8). -/
def lcgNext (s : ℕ) : ℕ := (1103515245 * s + 12345) % 2147483648

/-- The first `k` states drawn from seed `s`. -/
def lcgStream : ℕ → ℕ → List ℕ
  | _, 0 => []
  | s, k + 1 => lcgNext s :: lcgStream (lcgNext s) k

/-- Index into a point list by a pseudo-random natural (modulo length). -/
def pick3 (pts : List Pt3) (i : ℕ) : Pt3 := pts.getD (i % pts.length) (0, 0, 0)

/-- Index into a 2D point list by a pseudo-random natural (modulo length). -/
def pick2 (pts : List Pt) (i : ℕ) : Pt := pts.getD (i % pts.length) (0, 0)

/-- Modelled from the spec: derive the 3-point sample of each trial of the
plane fitter deterministically from the seed. -/
def planeSamples (seed trials : ℕ) (pts : List Pt3) : List (Pt3 × Pt3 × Pt3) :=
  (List.range trials).map fun k =>
    let base := lcgStream (seed + k) 3
    (pick3 pts (base.getD 0 0), pick3 pts (base.getD 1 0), pick3 pts (base.getD 2 0))

/-- Modelled from the spec: derive the 2-point sample of each trial of the
line fitter deterministically from the seed. -/
def lineSamples (seed trials : ℕ) (pts : List Pt) : List (List Pt) :=
  (List.range trials).map fun k =>
    let base := lcgStream (seed + k) 2
    [pick2 pts (base.getD 0 0), pick2 pts (base.getD 1 0)]

/-- The plane fitter run with a fixed random seed (spec §8 idempotence). -/
def fitPlaneSeeded (seed trials : ℕ) (points : List Pt3) (tol : ℚ) : Option PlaneModel :=
  fitPlaneModel (planeSamples seed trials points) points tol

/-- The line fitter run with a fixed random seed (spec §8 idempotence). -/
def fitLineSeeded (seed trials : ℕ) (points : List Pt) (tol : ℚ)
    (valid : LineModel → List Pt → Bool) : Option (LineModel × List Bool) :=
  calculateLineCoefs (lineSamples seed trials points) points tol valid

/-- Concrete mask for the splitter examples: two horizontal segments, one at
row 0 and one at row 100, listed in the scan order of `cv2.findNonZero`. -/
def exPts : List Pt := [(0, 0), (1, 0), (2, 0), (0, 100), (1, 100), (2, 100)]

/-- Sample stream for the first line fit of the splitter examples. -/
def exS1 : List (List Pt) := [[(0, 0), (1, 0)]]

/-- Sample stream for the second line fit of the splitter examples. -/
def exS2 : List (List Pt) := [[(0, 100), (1, 100)]]

omit [DecidableEq α] in
/-- Cramer's rule is sound: when the determinant is non-zero, `solve3`
produces a solution of the system. -/
theorem solve3_sound (M : M3 α) (b : V3 α) (hdet : det3 M ≠ 0) :
    mulM3V M (solve3 M b) = b := by
  obtain ⟨⟨a00, a01, a02⟩, ⟨a10, a11, a12⟩, ⟨a20, a21, a22⟩⟩ := M
  obtain ⟨b0, b1, b2⟩ := b
  simp only [det3] at hdet
  simp only [solve3, mulM3V, dot3, det3, V3.mk.injEq]
  refine ⟨?_, ?_, ?_⟩ <;> (field_simp; ring)

omit [DecidableEq α] in
/-- Cramer's rule is complete: when the determinant is non-zero, any
solution of the system is the one `solve3` produces. -/
theorem solve3_unique (M : M3 α) (b v : V3 α) (hdet : det3 M ≠ 0)
    (h : mulM3V M v = b) : solve3 M b = v := by
  obtain ⟨⟨a00, a01, a02⟩, ⟨a10, a11, a12⟩, ⟨a20, a21, a22⟩⟩ := M
  obtain ⟨v0, v1, v2⟩ := v
  obtain ⟨b0, b1, b2⟩ := b
  simp only [mulM3V, dot3, V3.mk.injEq] at h
  obtain ⟨h0, h1, h2⟩ := h
  subst h0 h1 h2
  simp only [det3] at hdet
  simp only [solve3, det3, V3.mk.injEq]
  refine ⟨?_, ?_, ?_⟩ <;> (rw [div_eq_iff hdet]; ring)

/-- The Rodrigues rotation of the zero axis-angle vector is the identity. -/
theorem rodrigues_zero : rodrigues ⟨0, 0, 0⟩ = idM3 := by
  simp only [rodrigues, idM3]
  norm_num [Real.sqrt_zero, M3.mk.injEq, V3.mk.injEq]

/-- The projection matrix of identity intrinsics, zero rotation and unit-z
translation, evaluated. -/
theorem ppm_example_eval :
    calculatePpmMatrix idM3 ⟨0, 0, 0⟩ ⟨0, 0, 1⟩ =
      ⟨⟨1, 0, 0, 0⟩, ⟨0, 1, 0, 0⟩, ⟨0, 0, 1, 1⟩⟩ := by
  simp only [calculatePpmMatrix, rodrigues_zero, idM3, m3mul34]
  norm_num [M34.mk.injEq, V4.mk.injEq]

/-- A point selected by a mask is a point of the input sequence. -/
theorem mem_of_mem_selectByMask :
    ∀ (l : List Pt) (m : List Bool) (p : Pt), p ∈ selectByMask l m → p ∈ l := by
  intro l
  induction l with
  | nil => intro m p h; cases m <;> simp [selectByMask] at h
  | cons x xs ih =>
      intro m p h
      cases m with
      | nil => simp [selectByMask] at h
      | cons b bs =>
          cases b with
          | true =>
              simp only [selectByMask, if_true] at h
              rcases List.mem_cons.mp h with h | h
              · exact h ▸ List.mem_cons_self x xs
              · exact List.mem_cons_of_mem x (ih bs p h)
          | false =>
              simp only [selectByMask, if_false] at h
              exact List.mem_cons_of_mem x (ih bs p h)

/-- Over a duplicate-free sequence, the points selected by a mask and those
selected by its complement are disjoint. -/
theorem selectByMask_not_compl :
    ∀ (l : List Pt) (m : List Bool) (p : Pt), l.Nodup →
      p ∈ selectByMask l m → p ∉ selectByMask l (m.map (!·)) := by
  intro l
  induction l with
  | nil => intro m p _ h; cases m <;> simp [selectByMask] at h
  | cons x xs ih =>
      intro m p hnd h
      obtain ⟨hx, hxs⟩ := List.nodup_cons.mp hnd
      cases m with
      | nil => simp [selectByMask] at h
      | cons b bs =>
          cases b with
          | true =>
              simp only [selectByMask, if_true] at h
              simp only [List.map_cons, Bool.not_true, selectByMask, if_false]
              rcases List.mem_cons.mp h with h | h
              · subst h
                intro hc
                exact hx (mem_of_mem_selectByMask xs (bs.map (!·)) p hc)
              · exact ih bs p hxs h
          | false =>
              simp only [selectByMask, if_false] at h
              simp only [List.map_cons, Bool.not_false, selectByMask, if_true]
              intro hc
              rcases List.mem_cons.mp hc with hc | hc
              · exact hx (hc ▸ mem_of_mem_selectByMask xs bs p h)
              · exact ih bs p hxs h hc

/-- A successful trial passed the model-validity predicate. -/
theorem lineTrial_valid (pts : List Pt) (tol : ℚ) (valid : LineModel → List Pt → Bool)
    (s : List Pt) (c : LineCandidate) (h : lineTrial pts tol valid s = some c) :
    valid c.model pts = true := by
  unfold lineTrial at h
  split at h
  · exact Option.noConfusion h
  · split at h
    · rename_i m hm hv
      cases Option.some.inj h
      exact hv
    · exact Option.noConfusion h

/-- The comparison step of the consensus search keeps one of its two
arguments. -/
theorem betterCand_cases (b c : Option LineCandidate) (r : LineCandidate)
    (h : betterCand b c = some r) : b = some r ∨ c = some r := by
  cases b with
  | none => exact Or.inr h
  | some bb =>
      cases c with
      | none => exact Or.inl h
      | some cc =>
          by_cases hs : bb.score < cc.score
          · refine Or.inr ?_
            have he : betterCand (some bb) (some cc) = some cc := by
              show (if bb.score < cc.score then some cc else some bb) = some cc
              rw [if_pos hs]
            rwa [he] at h
          · refine Or.inl ?_
            have he : betterCand (some bb) (some cc) = some bb := by
              show (if bb.score < cc.score then some cc else some bb) = some bb
              rw [if_neg hs]
            rwa [he] at h

/-- Every candidate returned by the consensus search passed the caller's
model-validity predicate. -/
theorem bestLineCandidate_valid (stream : List (List Pt)) (pts : List Pt) (tol : ℚ)
    (valid : LineModel → List Pt → Bool) (c : LineCandidate)
    (h : bestLineCandidate stream pts tol valid = some c) : valid c.model pts = true := by
  suffices H : ∀ (st : List (List Pt)) (acc : Option LineCandidate),
      (∀ d, acc = some d → valid d.model pts = true) →
      ∀ d, st.foldl (fun best s => betterCand best (lineTrial pts tol valid s)) acc = some d →
        valid d.model pts = true by
    exact H stream none (fun d hd => Option.noConfusion hd) c h
  intro st
  induction st with
  | nil => intro acc hacc d hd; exact hacc d hd
  | cons s rest ih =>
      intro acc hacc d hd
      simp only [List.foldl_cons] at hd
      refine ih (betterCand acc (lineTrial pts tol valid s)) ?_ d hd
      intro e he
      rcases betterCand_cases acc (lineTrial pts tol valid s) e he with hacc' | ht
      · exact hacc e hacc'
      · exact lineTrial_valid pts tol valid s e ht

/-- Inversion of a successful `splitResult`: both fits succeeded, the first
set is the first fit's inliers, and the second set is selected from the
complement of the first fit's inliers. -/
theorem splitResult_inv (s1 s2 : List (List Pt)) (tol : ℚ) (src : List Pt) (r : SplitInfo)
    (h : splitResult s1 s2 tol src = some r) :
    ∃ m1 mask1 m2 mask2,
      calculateLineCoefs s1 src tol noModelCheck = some (m1, mask1) ∧
      calculateLineCoefs s2 (selectByMask src (mask1.map (!·))) tol
          (validateDataLine m1.intercept) = some (m2, mask2) ∧
      r = ⟨selectByMask src mask1,
        selectByMask (selectByMask src (mask1.map (!·))) mask2,
        m1.intercept, m2.intercept⟩ := by
  unfold splitResult at h
  split at h
  · exact Option.noConfusion h
  · rename_i m1 mask1 heq1
    dsimp only at h
    split at h
    · exact Option.noConfusion h
    · rename_i m2 mask2 heq2
      exact ⟨m1, mask1, m2, mask2, heq1, heq2, (Option.some.inj h).symm⟩

/-- C10: calling `get_xyz_coords` with its default `constraints` argument
(`None`) always fails with the `TypeError` raised by iterating over `None`,
before the linear solve is ever reached; the spec's zero-constraint
`SingularSystemError` path is unreachable through the default argument, so
the `constraints` parameter is effectively mandatory. -/
theorem c10_default_constraints_type_error (i j : ℚ) (ppm : M34 ℚ) :
    get_xyz_coords i j ppm none = .error .typeError := rfl

/-- C2 counterexample: the claim that any 3-point sample with at least two
identical z-values is rejected is false — `validateData` accepts the
z-values `(1, 1, 2)`, which have two identical entries, because the source
condition `b[0] == b[1] and b[1] == b[2]` only fires when all three are
equal. -/
theorem c2_claim_counterexample :
    ¬ ∀ (a : List (ℚ × ℚ)) (b : ℚ × ℚ × ℚ),
        (b.1 = b.2.1 ∨ b.1 = b.2.2 ∨ b.2.1 = b.2.2) → validateData a b = false := by
  intro hclaim
  have h := hclaim [] (1, 1, 2) (Or.inl rfl)
  have hval : validateData [] (1, 1, 2) = true := rfl
  exact Bool.noConfusion (hval.symm.trans h)

/-- C2 (amended): `validateData` rejects a 3-point sample exactly when all
three of its z-values are identical (`b[0] == b[1] and b[1] == b[2]`), not
when merely two of them coincide. -/
theorem c2_validateData_rejects_iff_all_z_equal (a : List (ℚ × ℚ)) (b : ℚ × ℚ × ℚ) :
    validateData a b = false ↔ b.1 = b.2.1 ∧ b.2.1 = b.2.2 := by
  simp [validateData]

/-- C6: `get_xyz_coords` fails with the numpy `LinAlgError` (the spec's
SingularSystemError) whenever zero constraints are supplied, whenever two or
more constraints make the stacked system non-square, and whenever the
stacked 3×3 system of one constraint is singular. -/
theorem c6_backproject_singular_failure (i j : ℚ) (ppm : M34 ℚ) (cs : List (V4 ℚ))
    (h : cs = [] ∨ 2 ≤ cs.length ∨ ∃ c, cs = [c] ∧ det3 (sysMatrix i j ppm c) = 0) :
    get_xyz_coords i j ppm (some cs) = .error .linAlgError := by
  rcases cs with _ | ⟨c, _ | ⟨c2, rest⟩⟩
  · rfl
  · rcases h with h | h | ⟨c', hc, hdet⟩
    · exact absurd h (by simp)
    · exact absurd h (by simp)
    · obtain rfl : c = c' := by injection hc
      show (if det3 (sysMatrix i j ppm c) = 0 then Except.error PyErr.linAlgError
        else Except.ok (solve3 (sysMatrix i j ppm c) (sysRhs i j ppm c))) = _
      rw [if_pos hdet]
  · rfl

/-- C6 witness: the empty constraint list at a concrete pixel and
projection matrix. -/
theorem c6_backproject_singular_failure_witness :
    (([] : List (V4 ℚ)) = [] ∨ 2 ≤ ([] : List (V4 ℚ)).length ∨
      ∃ c, ([] : List (V4 ℚ)) = [c] ∧
        det3 (sysMatrix 0 0 (⟨⟨1, 0, 0, 0⟩, ⟨0, 1, 0, 0⟩, ⟨0, 0, 1, 0⟩⟩ : M34 ℚ) c) = 0) ∧
    get_xyz_coords (0 : ℚ) 0 ⟨⟨1, 0, 0, 0⟩, ⟨0, 1, 0, 0⟩, ⟨0, 0, 1, 0⟩⟩ (some []) =
      .error .linAlgError :=
  ⟨Or.inl rfl,
    c6_backproject_singular_failure 0 0 ⟨⟨1, 0, 0, 0⟩, ⟨0, 1, 0, 0⟩, ⟨0, 0, 1, 0⟩⟩ []
      (Or.inl rfl)⟩

/-- C4: with exactly one constraint and a non-singular stacked system,
`get_xyz_coords` returns the unique point satisfying the two ray equations
`(P2·i - P0)[0:3]·p = -(P2·i - P0)[3]`, `(P2·j - P1)[0:3]·p = -(P2·j - P1)[3]`
and the constraint equation `a·x + b·y + c·z = d`. -/
theorem c4_backproject_unique_solution (i j : ℚ) (ppm : M34 ℚ) (c : V4 ℚ)
    (hdet : det3 (sysMatrix i j ppm c) ≠ 0) :
    ∃ p : V3 ℚ, get_xyz_coords i j ppm (some [c]) = .ok p ∧
      ((v4sub (v4smul i ppm.r2) ppm.r0).a * p.x + (v4sub (v4smul i ppm.r2) ppm.r0).b * p.y +
          (v4sub (v4smul i ppm.r2) ppm.r0).c * p.z = -(v4sub (v4smul i ppm.r2) ppm.r0).d) ∧
      ((v4sub (v4smul j ppm.r2) ppm.r1).a * p.x + (v4sub (v4smul j ppm.r2) ppm.r1).b * p.y +
          (v4sub (v4smul j ppm.r2) ppm.r1).c * p.z = -(v4sub (v4smul j ppm.r2) ppm.r1).d) ∧
      (c.a * p.x + c.b * p.y + c.c * p.z = c.d) ∧
      ∀ q : V3 ℚ,
        ((v4sub (v4smul i ppm.r2) ppm.r0).a * q.x + (v4sub (v4smul i ppm.r2) ppm.r0).b * q.y +
            (v4sub (v4smul i ppm.r2) ppm.r0).c * q.z = -(v4sub (v4smul i ppm.r2) ppm.r0).d) →
        ((v4sub (v4smul j ppm.r2) ppm.r1).a * q.x + (v4sub (v4smul j ppm.r2) ppm.r1).b * q.y +
            (v4sub (v4smul j ppm.r2) ppm.r1).c * q.z = -(v4sub (v4smul j ppm.r2) ppm.r1).d) →
        (c.a * q.x + c.b * q.y + c.c * q.z = c.d) → q = p := by
  have hsol := solve3_sound (sysMatrix i j ppm c) (sysRhs i j ppm c) hdet
  have h0 := congrArg V3.x hsol
  have h1 := congrArg V3.y hsol
  have h2 := congrArg V3.z hsol
  simp only [mulM3V, dot3, sysMatrix, sysRhs] at h0 h1 h2
  refine ⟨solve3 (sysMatrix i j ppm c) (sysRhs i j ppm c), ?_, h0, h1, ?_, ?_⟩
  · show (if det3 (sysMatrix i j ppm c) = 0 then Except.error PyErr.linAlgError
      else Except.ok (solve3 (sysMatrix i j ppm c) (sysRhs i j ppm c))) = _
    rw [if_neg hdet]
  · exact h2
  · intro q hq0 hq1 hq2
    have hmul : mulM3V (sysMatrix i j ppm c) q = sysRhs i j ppm c := by
      simp only [mulM3V, dot3, sysMatrix, sysRhs, V3.mk.injEq]
      exact ⟨hq0, hq1, hq2⟩
    exact (solve3_unique (sysMatrix i j ppm c) (sysRhs i j ppm c) q hdet hmul).symm

/-- For any 3×4 projection matrix, forward projection followed by
constrained back-projection recovers the original point when the point lies
on the constraint, its depth is non-zero and the stacked system is
non-singular. -/
theorem roundtrip_aux (P : M34 ℝ) (X : V3 ℝ) (c : V4 ℝ)
    (hplane : c.a * X.x + c.b * X.y + c.c * X.z = c.d)
    (hw : dot4h P.r2 X ≠ 0)
    (hdet : det3 (sysMatrix (projPixel P X).1 (projPixel P X).2 P c) ≠ 0) :
    get_xyz_coords (projPixel P X).1 (projPixel P X).2 P (some [c]) = .ok X := by
  have hred : get_xyz_coords (projPixel P X).1 (projPixel P X).2 P (some [c]) =
      if det3 (sysMatrix (projPixel P X).1 (projPixel P X).2 P c) = 0
      then Except.error PyErr.linAlgError
      else Except.ok (solve3 (sysMatrix (projPixel P X).1 (projPixel P X).2 P c)
        (sysRhs (projPixel P X).1 (projPixel P X).2 P c)) := rfl
  rw [hred, if_neg hdet]
  congr 1
  apply solve3_unique _ _ _ hdet
  obtain ⟨⟨p00, p01, p02, p03⟩, ⟨p10, p11, p12, p13⟩, ⟨p20, p21, p22, p23⟩⟩ := P
  obtain ⟨x0, y0, z0⟩ := X
  simp only [dot4h] at hw
  simp only [sysMatrix, sysRhs, mulM3V, dot3, projPixel, dot4h, v4sub, v4smul, V3.mk.injEq]
  refine ⟨?_, ?_, ?_⟩
  · field_simp
    ring
  · field_simp
    ring
  · exact hplane

/-- C3: for every intrinsic matrix and pose, the projection matrix built by
`calculatePpmMatrix` satisfies the round-trip law — forward-projecting a 3D
point that lies on a plane constraint and back-projecting the resulting
pixel with that single constraint recovers the original point exactly,
whenever the point has non-zero depth and the stacked system is
non-singular. -/
theorem c3_projection_roundtrip (A : M3 ℝ) (rvec tvec X : V3 ℝ) (c : V4 ℝ)
    (hplane : c.a * X.x + c.b * X.y + c.c * X.z = c.d)
    (hw : dot4h (calculatePpmMatrix A rvec tvec).r2 X ≠ 0)
    (hdet : det3 (sysMatrix (projPixel (calculatePpmMatrix A rvec tvec) X).1
      (projPixel (calculatePpmMatrix A rvec tvec) X).2 (calculatePpmMatrix A rvec tvec) c) ≠ 0) :
    get_xyz_coords (projPixel (calculatePpmMatrix A rvec tvec) X).1
      (projPixel (calculatePpmMatrix A rvec tvec) X).2
      (calculatePpmMatrix A rvec tvec) (some [c]) = .ok X :=
  roundtrip_aux (calculatePpmMatrix A rvec tvec) X c hplane hw hdet

/-- C3 witness: identity intrinsics, zero rotation, translation `(0, 0, 1)`,
the point `(0, 0, 1)` and the plane `z = 1`. -/
theorem c3_projection_roundtrip_witness :
    ((⟨0, 0, 1, 1⟩ : V4 ℝ).a * (⟨0, 0, 1⟩ : V3 ℝ).x +
        (⟨0, 0, 1, 1⟩ : V4 ℝ).b * (⟨0, 0, 1⟩ : V3 ℝ).y +
        (⟨0, 0, 1, 1⟩ : V4 ℝ).c * (⟨0, 0, 1⟩ : V3 ℝ).z = (⟨0, 0, 1, 1⟩ : V4 ℝ).d) ∧
    dot4h (calculatePpmMatrix idM3 ⟨0, 0, 0⟩ ⟨0, 0, 1⟩).r2 ⟨0, 0, 1⟩ ≠ 0 ∧
    get_xyz_coords (projPixel (calculatePpmMatrix idM3 ⟨0, 0, 0⟩ ⟨0, 0, 1⟩) ⟨0, 0, 1⟩).1
      (projPixel (calculatePpmMatrix idM3 ⟨0, 0, 0⟩ ⟨0, 0, 1⟩) ⟨0, 0, 1⟩).2
      (calculatePpmMatrix idM3 ⟨0, 0, 0⟩ ⟨0, 0, 1⟩) (some [⟨0, 0, 1, 1⟩]) = .ok ⟨0, 0, 1⟩ := by
  have hplane : (⟨0, 0, 1, 1⟩ : V4 ℝ).a * (⟨0, 0, 1⟩ : V3 ℝ).x +
      (⟨0, 0, 1, 1⟩ : V4 ℝ).b * (⟨0, 0, 1⟩ : V3 ℝ).y +
      (⟨0, 0, 1, 1⟩ : V4 ℝ).c * (⟨0, 0, 1⟩ : V3 ℝ).z = (⟨0, 0, 1, 1⟩ : V4 ℝ).d := by
    norm_num
  have hw : dot4h (calculatePpmMatrix idM3 ⟨0, 0, 0⟩ ⟨0, 0, 1⟩).r2 (⟨0, 0, 1⟩ : V3 ℝ) ≠ 0 := by
    rw [ppm_example_eval]
    norm_num [dot4h]
  have hdet : det3 (sysMatrix
      (projPixel (calculatePpmMatrix idM3 ⟨0, 0, 0⟩ ⟨0, 0, 1⟩) ⟨0, 0, 1⟩).1
      (projPixel (calculatePpmMatrix idM3 ⟨0, 0, 0⟩ ⟨0, 0, 1⟩) ⟨0, 0, 1⟩).2
      (calculatePpmMatrix idM3 ⟨0, 0, 0⟩ ⟨0, 0, 1⟩) ⟨0, 0, 1, 1⟩) ≠ 0 := by
    rw [ppm_example_eval]
    norm_num [sysMatrix, projPixel, dot4h, v4sub, v4smul, det3]
  exact ⟨hplane, hw,
    c3_projection_roundtrip idM3 ⟨0, 0, 0⟩ ⟨0, 0, 1⟩ ⟨0, 0, 1⟩ ⟨0, 0, 1, 1⟩ hplane hw hdet⟩

/-- C1 counterexample: on the two-segment mask `exPts` the first fit has
intercept 0 and the second fit intercept 100, yet `splitTopBottomPoints`
returns the intercept-100 mask as `bottom` — the claim that the
smaller-intercept mask is returned as `bottom` fails (the source branch
assigns the smaller-intercept set to `top`). -/
theorem c1_claim_counterexample :
    splitResult exS1 exS2 1 exPts =
      some ⟨[(0, 0), (1, 0), (2, 0)], [(0, 100), (1, 100), (2, 100)], 0, 100⟩ ∧
    (0 : ℚ) < 100 ∧
    splitTopBottomPoints exS1 exS2 1 exPts =
      some ([(0, 100), (1, 100), (2, 100)], [(0, 0), (1, 0), (2, 0)]) ∧
    ([(0, 100), (1, 100), (2, 100)] : List Pt) ≠ [(0, 0), (1, 0), (2, 0)] := by
  have hsr : splitResult exS1 exS2 1 exPts =
      some ⟨[(0, 0), (1, 0), (2, 0)], [(0, 100), (1, 100), (2, 100)], 0, 100⟩ := by
    norm_num [splitResult, calculateLineCoefs, bestLineCandidate, lineTrial, olsLine,
      inlierMaskLine, lineResidualOk, countTrue, selectByMask, betterCand, validateDataLine,
      noModelCheck, exS1, exS2, exPts, List.foldl, List.filter, abs_le, lt_abs]
  refine ⟨hsr, by norm_num, ?_, by norm_num⟩
  norm_num [splitTopBottomPoints, hsr]

/-- C1 (amended): when both line fits of `splitTopBottomPoints` succeed,
the returned pair is the two rasterized inlier sets ordered by intercept
with the larger-intercept fit's mask returned as `bottom` and the
smaller-intercept fit's mask as `top` (ordering decided purely by comparing
the two intercepts). -/
theorem c1_bottom_has_larger_intercept (s1 s2 : List (List Pt)) (tol : ℚ)
    (src : List Pt) (r : SplitInfo) (h : splitResult s1 s2 tol src = some r) :
    ∃ b t cb ct, splitTopBottomPoints s1 s2 tol src = some (b, t) ∧
      (((b, cb) = (r.set1, r.i1) ∧ (t, ct) = (r.set2, r.i2)) ∨
        ((b, cb) = (r.set2, r.i2) ∧ (t, ct) = (r.set1, r.i1))) ∧
      ct ≤ cb := by
  by_cases hlt : r.i1 < r.i2
  · exact ⟨r.set2, r.set1, r.i2, r.i1, by simp [splitTopBottomPoints, h, hlt],
      Or.inr ⟨rfl, rfl⟩, le_of_lt hlt⟩
  · exact ⟨r.set1, r.set2, r.i1, r.i2, by simp [splitTopBottomPoints, h, hlt],
      Or.inl ⟨rfl, rfl⟩, le_of_not_lt hlt⟩

/-- C1 amended-claim witness: the two-segment mask example. -/
theorem c1_bottom_has_larger_intercept_witness :
    splitResult exS1 exS2 1 exPts =
      some ⟨[(0, 0), (1, 0), (2, 0)], [(0, 100), (1, 100), (2, 100)], 0, 100⟩ ∧
    ∃ b t cb ct, splitTopBottomPoints exS1 exS2 1 exPts = some (b, t) ∧
      (((b, cb) = (([(0, 0), (1, 0), (2, 0)] : List Pt), (0 : ℚ)) ∧
          (t, ct) = (([(0, 100), (1, 100), (2, 100)] : List Pt), (100 : ℚ))) ∨
        ((b, cb) = (([(0, 100), (1, 100), (2, 100)] : List Pt), (100 : ℚ)) ∧
          (t, ct) = (([(0, 0), (1, 0), (2, 0)] : List Pt), (0 : ℚ)))) ∧
      ct ≤ cb := by
  have hsr : splitResult exS1 exS2 1 exPts =
      some ⟨[(0, 0), (1, 0), (2, 0)], [(0, 100), (1, 100), (2, 100)], 0, 100⟩ := by
    norm_num [splitResult, calculateLineCoefs, bestLineCandidate, lineTrial, olsLine,
      inlierMaskLine, lineResidualOk, countTrue, selectByMask, betterCand, validateDataLine,
      noModelCheck, exS1, exS2, exPts, List.foldl, List.filter, abs_le, lt_abs]
  exact ⟨hsr, c1_bottom_has_larger_intercept exS1 exS2 1 exPts _ hsr⟩

/-- C5 counterexample: with reference intercept 0, threshold 25, tolerance
10 and the sample stream drawing `(0, 26), (1, 26)`, the consensus search
accepts the candidate line `y = 26` (distance 26 > 25), but the final
least-squares refit over its inliers returns intercept 21, which is within
the threshold — so `fitLine` can return a model whose intercept is within
25 of the reference. -/
theorem c5_claim_counterexample :
    calculateLineCoefs [[(0, 26), (1, 26)]] [(0, 26), (1, 26), (0, 16), (1, 16)] 10
        (validateDataLine 0) = some (⟨0, 21⟩, [true, true, true, true]) ∧
    ¬ (25 < |(0 : ℚ) - 21|) := by
  constructor
  · norm_num [calculateLineCoefs, bestLineCandidate, lineTrial, olsLine, inlierMaskLine,
      lineResidualOk, countTrue, selectByMask, betterCand, validateDataLine,
      List.foldl, List.filter, abs_le, lt_abs]
  · norm_num [lt_abs]

/-- C5 (amended): the distinct-intercept predicate is enforced on every
candidate model retained during the consensus search, so the winning
candidate's intercept always differs from the reference by strictly more
than 25; the returned coefficients, however, come from an unvalidated
least-squares refit over the winner's inliers and may fall within the
threshold. -/
theorem c5_candidate_intercept_distinct (stream : List (List Pt)) (pts : List Pt)
    (tol c1 : ℚ) (cand : LineCandidate)
    (h : bestLineCandidate stream pts tol (validateDataLine c1) = some cand) :
    25 < |c1 - cand.model.intercept| := by
  have hv := bestLineCandidate_valid stream pts tol (validateDataLine c1) cand h
  simpa [validateDataLine] using hv

/-- C5 amended-claim witness: the counterexample input's winning candidate
has intercept 26, at distance 26 > 25 from the reference 0. -/
theorem c5_candidate_intercept_distinct_witness :
    bestLineCandidate [[(0, 26), (1, 26)]] [(0, 26), (1, 26), (0, 16), (1, 16)] 10
        (validateDataLine 0) = some ⟨⟨0, 26⟩, [true, true, true, true], 4⟩ ∧
    25 < |(0 : ℚ) -
      (⟨⟨0, 26⟩, [true, true, true, true], 4⟩ : LineCandidate).model.intercept| := by
  have hb : bestLineCandidate [[(0, 26), (1, 26)]] [(0, 26), (1, 26), (0, 16), (1, 16)] 10
      (validateDataLine 0) = some ⟨⟨0, 26⟩, [true, true, true, true], 4⟩ := by
    norm_num [bestLineCandidate, lineTrial, olsLine, inlierMaskLine, lineResidualOk,
      countTrue, betterCand, validateDataLine, List.foldl, List.filter, abs_le, lt_abs]
  exact ⟨hb, c5_candidate_intercept_distinct _ _ _ _ _ hb⟩

/-- C7: when both line fits of `splitTopBottomPoints` succeed on a
duplicate-free point mask, the two returned masks are pixel-disjoint: the
second fit runs only over the complement of the first fit's inliers. -/
theorem c7_split_masks_disjoint (s1 s2 : List (List Pt)) (tol : ℚ) (src : List Pt)
    (b t : List Pt) (hnd : src.Nodup)
    (h : splitTopBottomPoints s1 s2 tol src = some (b, t)) :
    ∀ p : Pt, ¬ (p ∈ b ∧ p ∈ t) := by
  unfold splitTopBottomPoints at h
  cases hr : splitResult s1 s2 tol src with
  | none => rw [hr] at h; exact absurd h (by simp)
  | some r =>
      rw [hr] at h
      simp only [Option.map_some'] at h
      have hbt := Option.some.inj h
      obtain ⟨m1, mask1, m2, mask2, h1, h2, hre⟩ := splitResult_inv s1 s2 tol src r hr
      subst hre
      have key : ∀ p : Pt, p ∈ selectByMask src mask1 →
          p ∉ selectByMask (selectByMask src (mask1.map (!·))) mask2 := by
        intro p hp hq
        exact selectByMask_not_compl src mask1 p hnd hp
          (mem_of_mem_selectByMask _ _ _ hq)
      dsimp only at hbt
      rintro p ⟨hpb, hpt⟩
      by_cases hlt : m1.intercept < m2.intercept
      · rw [if_pos hlt] at hbt
        have hb := congrArg Prod.fst hbt
        have ht := congrArg Prod.snd hbt
        dsimp only at hb ht
        subst hb ht
        exact key p hpt hpb
      · rw [if_neg hlt] at hbt
        have hb := congrArg Prod.fst hbt
        have ht := congrArg Prod.snd hbt
        dsimp only at hb ht
        subst hb ht
        exact key p hpb hpt

/-- C7 witness: the two-segment mask example, whose returned masks are the
two disjoint segments. -/
theorem c7_split_masks_disjoint_witness :
    exPts.Nodup ∧
    splitTopBottomPoints exS1 exS2 1 exPts =
      some ([(0, 100), (1, 100), (2, 100)], [(0, 0), (1, 0), (2, 0)]) ∧
    ∀ p : Pt, ¬ (p ∈ ([(0, 100), (1, 100), (2, 100)] : List Pt) ∧
      p ∈ ([(0, 0), (1, 0), (2, 0)] : List Pt)) := by
  have hnd : exPts.Nodup := by norm_num [exPts, Prod.ext_iff]
  have hsp : splitTopBottomPoints exS1 exS2 1 exPts =
      some ([(0, 100), (1, 100), (2, 100)], [(0, 0), (1, 0), (2, 0)]) := by
    have hsr : splitResult exS1 exS2 1 exPts =
        some ⟨[(0, 0), (1, 0), (2, 0)], [(0, 100), (1, 100), (2, 100)], 0, 100⟩ := by
      norm_num [splitResult, calculateLineCoefs, bestLineCandidate, lineTrial, olsLine,
        inlierMaskLine, lineResidualOk, countTrue, selectByMask, betterCand, validateDataLine,
        noModelCheck, exS1, exS2, exPts, List.foldl, List.filter, abs_le, lt_abs]
    norm_num [splitTopBottomPoints, hsr]
  exact ⟨hnd, hsp, c7_split_masks_disjoint exS1 exS2 1 exPts _ _ hnd hsp⟩

/-- C4 witness: identity-like projection rows, pixel `(0, 0)` and the
constraint `z = 5`. -/
theorem c4_backproject_unique_solution_witness :
    det3 (sysMatrix (0 : ℚ) 0 ⟨⟨1, 0, 0, 0⟩, ⟨0, 1, 0, 0⟩, ⟨0, 0, 1, 0⟩⟩ ⟨0, 0, 1, 5⟩) ≠ 0 ∧
    ∃ p : V3 ℚ,
      get_xyz_coords (0 : ℚ) 0 ⟨⟨1, 0, 0, 0⟩, ⟨0, 1, 0, 0⟩, ⟨0, 0, 1, 0⟩⟩
        (some [⟨0, 0, 1, 5⟩]) = .ok p :=
  ⟨by norm_num [sysMatrix, det3, v4sub, v4smul],
    match c4_backproject_unique_solution 0 0 ⟨⟨1, 0, 0, 0⟩, ⟨0, 1, 0, 0⟩, ⟨0, 0, 1, 0⟩⟩
      ⟨0, 0, 1, 5⟩ (by norm_num [sysMatrix, det3, v4sub, v4smul]) with
    | ⟨p, hp, _⟩ => ⟨p, hp⟩⟩

/-- C8: whenever the plane fit succeeds, `calculatePlaneCoefs` returns the
4-list `[A, B, -1, -D]` built from the fitted model `z = A·x + B·y + D`,
and read as the linear constraint `a·x + b·y + c·z = d` it holds of exactly
the points on the fitted plane. -/
theorem c8_plane_coefs_linear_constraint (stream : List (Pt3 × Pt3 × Pt3))
    (points : List Pt3) (tol : ℚ) (m : PlaneModel)
    (h : fitPlaneModel stream points tol = some m) :
    ∃ c : V4 ℚ, calculatePlaneCoefs stream points tol = some c ∧
      c = ⟨m.A, m.B, -1, -m.D⟩ ∧
      ∀ x y z : ℚ, (c.a * x + c.b * y + c.c * z = c.d ↔ z = m.A * x + m.B * y + m.D) := by
  refine ⟨⟨m.A, m.B, -1, -m.D⟩, ?_, rfl, ?_⟩
  · simp [calculatePlaneCoefs, h]
  · intro x y z
    dsimp only
    constructor
    · intro hc
      linarith
    · intro hz
      linarith

/-- C8 witness: four points on the plane `z = x + y + 1` and a single
sample trial. -/
theorem c8_plane_coefs_linear_constraint_witness :
    fitPlaneModel [((0, 0, 1), (1, 0, 2), (0, 1, 2))]
        [(0, 0, 1), (1, 0, 2), (0, 1, 2), (1, 1, 3)] (1 / 100) = some ⟨1, 1, 1⟩ ∧
    ∃ c : V4 ℚ, calculatePlaneCoefs [((0, 0, 1), (1, 0, 2), (0, 1, 2))]
        [(0, 0, 1), (1, 0, 2), (0, 1, 2), (1, 1, 3)] (1 / 100) = some c ∧
      c = ⟨(⟨1, 1, 1⟩ : PlaneModel).A, (⟨1, 1, 1⟩ : PlaneModel).B, -1,
        -(⟨1, 1, 1⟩ : PlaneModel).D⟩ ∧
      ∀ x y z : ℚ, (c.a * x + c.b * y + c.c * z = c.d ↔
        z = (⟨1, 1, 1⟩ : PlaneModel).A * x + (⟨1, 1, 1⟩ : PlaneModel).B * y +
          (⟨1, 1, 1⟩ : PlaneModel).D) := by
  have hf : fitPlaneModel [((0, 0, 1), (1, 0, 2), (0, 1, 2))]
      [(0, 0, 1), (1, 0, 2), (0, 1, 2), (1, 1, 3)] (1 / 100) = some ⟨1, 1, 1⟩ := by
    norm_num [fitPlaneModel, bestPlaneCandidate, planeTrial, olsPlane, inlierMaskPlane,
      planeResidualOk, validateData, countTrue, selectByMask3, betterPlaneCand, solve3, det3,
      List.foldl, List.filter, abs_le]
  exact ⟨hf, c8_plane_coefs_linear_constraint _ _ _ _ hf⟩

/-- C9: with the random source fixed by a seed, the seeded fitters are pure
functions of their inputs — running `fitPlaneSeeded` (or `fitLineSeeded`)
twice on identical input with the same seed produces identical output
coefficients. -/
theorem c9_seeded_fit_deterministic (seed trials : ℕ) (tol : ℚ)
    (ps ps' : List Pt3) (qs qs' : List Pt) (valid : LineModel → List Pt → Bool)
    (hp : ps = ps') (hq : qs = qs') :
    fitPlaneSeeded seed trials ps tol = fitPlaneSeeded seed trials ps' tol ∧
    fitLineSeeded seed trials qs tol valid = fitLineSeeded seed trials qs' tol valid := by
  subst hp hq
  exact ⟨rfl, rfl⟩

/-- C9 witness: a concrete seed, trial budget and point sets. -/
theorem c9_seeded_fit_deterministic_witness :
    ([(0, 0, 1), (1, 0, 2)] : List Pt3) = [(0, 0, 1), (1, 0, 2)] ∧ exPts = exPts ∧
    fitPlaneSeeded 7 5 [(0, 0, 1), (1, 0, 2)] 1 = fitPlaneSeeded 7 5 [(0, 0, 1), (1, 0, 2)] 1 ∧
    fitLineSeeded 7 5 exPts 1 noModelCheck = fitLineSeeded 7 5 exPts 1 noModelCheck :=
  ⟨rfl, rfl,
    c9_seeded_fit_deterministic 7 5 1 [(0, 0, 1), (1, 0, 2)] [(0, 0, 1), (1, 0, 2)]
      exPts exPts noModelCheck rfl rfl⟩

end Spec2Proof
